import Mathlib

/-!
# Verification of the masscan userspace TCP engine and ARP helper

Shallow embedding of `src/stack-tcp-core.c` and `src/rawsock-arp.c`.

Machine integers are modelled as `Nat` with explicit reduction modulo `2^32`
(`u32`, `usub`) exactly where the C performs 32-bit unsigned arithmetic.
Fallible paths (the `exit(1)` in `_tcp_seg_resend`, the unbounded retry loops)
are modelled with `Option`.  Externals (the syn-cookie hash, the banner
parsers) appear as explicit parameters; a parser callback can only act on the
connection through `_tcp_seg_send`, so its behaviour is modelled as the list
of send requests it issues.
-/

namespace Masscan

/-- Reduction modulo 2^32, the implicit truncation of C `unsigned`/`uint32_t`. -/
def u32 (n : Nat) : Nat := n % 4294967296

/-- Unsigned 32-bit subtraction `a - b` with wraparound, as in the C code's
sequence-number arithmetic. -/
def usub (a b : Nat) : Nat := (a + 4294967296 - b % 4294967296) % 4294967296

/-- Truncation to an 8-bit byte, the C `(unsigned char)` cast. -/
def u8 (n : Nat) : Nat := n % 256

/-- Truncation to 16 bits, the C `(unsigned short)` cast. -/
def u16 (n : Nat) : Nat := n % 65536

/-- The segment-buffer ownership tag, C `enum TCP__flags`
(`TCP__static` / `TCP__adopt` / `TCP__copy`). -/
inductive TCPFlag where
  | tstatic
  | adopt
  | copy
deriving DecidableEq, Repr

/-- One outbound segment, C `struct TCP_Segment` (stack-tcp-core.c).
The C `buf` pointer plus `length` are modelled by carrying the bytes. -/
structure TCPSegment where
  seqno : Nat
  length : Nat
  flags : TCPFlag
  is_fin : Bool
  buf : List Nat
deriving DecidableEq, Repr

/-- The reduced TCP state set of the engine (C anonymous enum `STATE_*`). -/
inductive TcpState where
  | synSent
  | establishedSend
  | establishedRecv
  | closeWait
  | lastAck
  | finWait1
  | finWait2
  | closing
  | timeWait
deriving DecidableEq, Repr

/-- The application phase stored in `tcb->established`
(local enum `App_Connect` .. `App_SendNext` in `application_notify`). -/
inductive AppState where
  | connect
  | receiveHello
  | receiveNext
  | sendNext
deriving DecidableEq, Repr

/-- The event alphabet, C `enum TCP_What`. -/
inductive TCPWhat where
  | timeout
  | synack
  | rst
  | fin
  | ack
  | data
deriving DecidableEq, Repr

/-- The actions delivered to the application bridge, C `enum AppAction`. -/
inductive AppAction where
  | connected
  | recvTimeout
  | recvPayload
  | sendSent
deriving DecidableEq, Repr

/-- A protocol parser stream (`struct ProtocolParserStream`), reduced to the
capabilities the TCP core inspects: identity with the scripting stream, the
presence of a `transmit_hello` callback, the static `hello` buffer, and
whether another stream is chained behind it. -/
structure StreamM where
  is_scripting : Bool
  has_transmit_hello : Bool
  hello : List Nat
  has_next : Bool
deriving DecidableEq, Repr

/-- A packet handed to the transmit thread by `tcpcon_send_packet`:
TCP flags, the sequence/ack numbers placed in the header, and the payload. -/
structure Pkt where
  flags : Nat
  seq : Nat
  ack : Nat
  payload : List Nat
deriving DecidableEq, Repr

/-- One call a parser callback makes into `_tcp_seg_send` through the
`stack_handle_t` it is given (its only way to affect the connection). -/
structure SendReq where
  buf : List Nat
  length : Nat
  flags : TCPFlag
  is_fin : Bool
deriving DecidableEq, Repr

/-- An IPv4/IPv6 address, C `ipaddress` (tagged by `version`). -/
structure IPAddr where
  version : Nat
  ipv4 : Nat
  v6hi : Nat
  v6lo : Nat
deriving DecidableEq, Repr

/-- The TCP control block, C `struct TCP_Control_Block`.  The timer entry is
modelled as `Option (Nat × Nat)`: `some (secs, usecs)` when the entry is
linked into the timer wheel with that expiry, `none` when unlinked
(`tcb->timeout->prev == 0`).  `sent` accumulates the packets handed to the
transmit thread and `delivered` the payloads handed to the banner parser;
both model observable output, not C state. -/
structure TCB where
  ip_me : IPAddr
  ip_them : IPAddr
  port_me : Nat
  port_them : Nat
  seqno_me : Nat
  seqno_them : Nat
  ackno_me : Nat
  ackno_them : Nat
  seqno_me_first : Nat
  seqno_them_first : Nat
  ttl : Nat
  syns_sent : Nat
  mss : Nat
  tcpstate : TcpState
  established : AppState
  is_active : Bool
  is_small_window : Bool
  when_created : Nat
  segments : List TCPSegment
  timer : Option (Nat × Nat)
  stream : Option StreamM
  sent : List Pkt
  delivered : List (List Nat)
deriving DecidableEq, Repr

/-- A zeroed control block, the state after `memset(tcb, 0, sizeof(*tcb))`
in `tcpcon_create_tcb` (`STATE_SYN_SENT` is 0, `App_Connect` is 0). -/
def defaultTCB : TCB :=
  { ip_me := ⟨0, 0, 0, 0⟩
    ip_them := ⟨0, 0, 0, 0⟩
    port_me := 0
    port_them := 0
    seqno_me := 0
    seqno_them := 0
    ackno_me := 0
    ackno_them := 0
    seqno_me_first := 0
    seqno_them_first := 0
    ttl := 0
    syns_sent := 0
    mss := 0
    tcpstate := TcpState.synSent
    established := AppState.connect
    is_active := false
    is_small_window := false
    when_created := 0
    segments := []
    timer := none
    stream := none
    sent := []
    delivered := [] }

/-- The scalar configuration of `struct TCP_ConnectionTable` consumed by the
state machine: the two timeouts, the entropy seed and the heartbleed flag
(`banner1->is_heartbleed`). -/
structure TCPConf where
  timeout_connection : Nat
  timeout_hello : Nat
  entropy : Nat
  is_heartbleed : Bool
deriving DecidableEq, Repr

/-- Configuration part of `tcpcon_create_table` (stack-tcp-core.c):
a configured `connection_timeout` of 0 becomes 30 seconds, `timeout_hello`
is 2.  Bucket-array sizing and allocation are not needed by any claim and
are omitted. -/
def tcpcon_create_table (connection_timeout : Nat) (entropy : Nat) : TCPConf :=
  { timeout_connection := if connection_timeout = 0 then 30 else connection_timeout
    timeout_hello := 2
    entropy := entropy
    is_heartbleed := false }

/-- Model of `tcpcon_send_packet`: format a packet (seq = `seqno_me - is_syn`,
ack = `seqno_them`) and enqueue it for the transmit thread.  Buffer
availability (the 100 µs back-off) is not modelled. -/
def tcpcon_send_packet (tcb : TCB) (tcp_flags : Nat) (payload : List Nat) : TCB :=
  let is_syn : Nat := if tcp_flags = 2 then 1 else 0
  { tcb with sent := tcb.sent ++
      [{ flags := tcp_flags, seq := usub tcb.seqno_me is_syn,
         ack := tcb.seqno_them, payload := payload }] }

/-- Effect of `tcpcon_destroy_tcb` on the control block itself: release the
queued segments, unlink the timer entry, poison the identity fields and
deactivate.  Banner flushing and the hash-chain/freelist manipulation live in
the table model. -/
def tcpcon_destroy_tcb (tcb : TCB) : TCB :=
  { tcb with
      segments := []
      timer := none
      ip_me := ⟨tcb.ip_me.version, 4294967295, tcb.ip_me.v6hi, tcb.ip_me.v6lo⟩
      ip_them := ⟨tcb.ip_them.version, 4294967295, tcb.ip_them.v6hi, tcb.ip_them.v6lo⟩
      port_me := 65535
      port_them := 65535
      is_active := false }

/-- The running `seqno` of the tail-walking loop in `_tcp_seg_send`
(`seqno = (unsigned)((*next)->seqno + (*next)->length)` per node). -/
def tailSeqno (seqno : Nat) : List TCPSegment → Nat
  | [] => seqno
  | seg :: rest => tailSeqno (u32 (seg.seqno + seg.length)) rest

/-- Append step of `_tcp_seg_send`: link the new segment at the tail; if it
became the head, transmit it immediately (`PSH|ACK`, plus FIN per the call's
`is_fin` argument) and move the phase to `ESTABLISHED_SEND`. -/
def tcp_seg_append (tcb : TCB) (seg : TCPSegment) (is_fin : Bool) : TCB :=
  let tcbA := { tcb with segments := tcb.segments ++ [seg] }
  if tcb.segments.isEmpty then
    { tcpcon_send_packet tcbA (if is_fin then 25 else 24) seg.buf with
        tcpstate := TcpState.establishedSend }
  else tcbA

/-- Model of `_tcp_seg_send`.  The C recursion consumes `mss` bytes per call;
`fuel` bounds its depth (any `fuel ≥ len` is exact whenever `mss > 0`,
matching the C, which does not terminate for `mss = 0`).  The early return
for a zero-length non-FIN call bypasses the `reset_timeout` label, exactly as
in the source. -/
def tcp_seg_send (fuel : Nat) (tcb : TCB) (buf : List Nat) (len0 : Nat)
    (fl : TCPFlag) (is_fin : Bool) (secs usecs : Nat) : TCB :=
  -- `if (length > mss) { more = length - mss; length = mss; }`
  let len := min tcb.mss len0
  let more := len0 - tcb.mss
  if len = 0 ∧ is_fin = false then tcb
  else if tcb.segments.any TCPSegment.is_fin then
    -- "can't send past a FIN": refuse (an adopted buf is freed), goto reset_timeout
    { tcb with timer := some (secs + 1, usecs) }
  else
    let seg : TCPSegment :=
      { seqno := u32 (tailSeqno tcb.seqno_me tcb.segments), length := len, flags := fl,
        is_fin := more == 0 && is_fin, buf := buf.take len }
    -- append; if the new segment is the head, transmit it right away
    let tcb2 := tcp_seg_append tcb seg is_fin
    let tcb3 :=
      if 0 < more then
        match fuel with
        | 0 => tcb2
        | f + 1 =>
            tcp_seg_send f tcb2 (buf.drop len) more
              (if fl = TCPFlag.adopt then TCPFlag.copy else fl) is_fin secs usecs
      else tcb2
    { tcb3 with timer := some (secs + 1, usecs) }

/-- Model of `_tcp_seg_resend`.  `none` models the `exit(1)` taken when the
head segment's sequence number disagrees with `seqno_me`
(the "SEQNO FAILURE" fatal check). -/
def tcp_seg_resend (tcb : TCB) (secs usecs : Nat) : Option TCB :=
  match tcb.segments with
  | [] => some { tcb with timer := some (secs + 2, usecs) }
  | seg :: _ =>
      if tcb.seqno_me ≠ seg.seqno then none
      else if seg.is_fin && seg.length == 0 then
        some { tcpcon_send_packet tcb 17 [] with timer := some (secs + 2, usecs) }
      else
        some { tcpcon_send_packet tcb (if seg.is_fin then 25 else 24) seg.buf with
                 timer := some (secs + 2, usecs) }

/-- The retire loop of `_tcp_seg_acknowledge`.  Faithful to the source: the
loop frees the buffers of fully-acknowledged segments and steps
`seg = seg->next`, but never removes the nodes from `tcb->segments`; the
first partially-acknowledged node is rewritten in place (converting an
adopted buffer to a copy) without adjusting its `seqno`.  Returns the list
after the in-place rewrite and the total amount added to
`seqno_me`/`ackno_them`.  The running `length` wraps as C `unsigned`. -/
def ack_retire (len : Nat) : List TCPSegment → List TCPSegment × Nat
  | [] => ([], 0)
  | seg :: rest =>
      if seg.length ≤ len then
        let adv := seg.length + (if seg.is_fin then 1 else 0)
        let len2 := (len + 4294967296 - adv % 4294967296) % 4294967296
        let pr := ack_retire len2 rest
        (seg :: pr.1, adv + pr.2)
      else
        let seg2 :=
          match seg.flags with
          | TCPFlag.adopt => { seg with buf := seg.buf.drop len, length := seg.length - len, flags := TCPFlag.copy }
          | TCPFlag.copy => { seg with buf := seg.buf.drop len, length := seg.length - len, flags := TCPFlag.copy }
          | TCPFlag.tstatic => { seg with buf := seg.buf.drop len }
        (seg2 :: rest, len)

/-- Model of `_tcp_seg_acknowledge`: duplicate / past / future guards on the
32-bit ack number, then the retire loop; a good ack records `ackno_them`.
Returns the updated block and the C `int` result (1 = good ack). -/
def tcp_seg_acknowledge (tcb : TCB) (ackno : Nat) : TCB × Nat :=
  if ackno = tcb.seqno_me then (tcb, 0)
  else if 100000 < usub ackno tcb.seqno_me then (tcb, 0)
  else if usub tcb.seqno_me ackno < 100000 then (tcb, 0)
  else
    let len := usub ackno tcb.seqno_me
    let pr := ack_retire len tcb.segments
    ({ tcb with segments := pr.1, seqno_me := u32 (tcb.seqno_me + pr.2),
                ackno_them := ackno }, 1)

/-- The byte-by-byte overlap-trimming loop of `_tcb_segment_recv`
(`while (seqno_them != tcb->seqno_them && payload_length) ...`), returning
the remaining payload. -/
def trimPayload (s target : Nat) : List Nat → List Nat
  | [] => []
  | b :: rest => if s = target then b :: rest else trimPayload (u32 (s + 1)) target rest

/-- Replay of the `_tcp_seg_send` calls a parser callback issues through its
`stack_handle_t` (the callback's only channel back into the connection). -/
def applySends (tcb : TCB) (reqs : List SendReq) (secs usecs : Nat) : TCB :=
  match reqs with
  | [] => tcb
  | r :: rest =>
      applySends (tcp_seg_send r.length tcb r.buf r.length r.flags r.is_fin secs usecs)
        rest secs usecs

/-- Model of `application_notify`.  `oracle` stands for the sends issued by
the external parser callback that fires in the branch (`transmit_hello` or
`parse`).  Payload delivery to the parser is recorded in `delivered`.
The chained-stream reconnect in the `App_Connect` case creates a different
control block and is outside this single-block model; the release-mode C
`assert` is a no-op. -/
def application_notify (conf : TCPConf) (oracle : List SendReq) (tcb : TCB)
    (action : AppAction) (payload : List Nat) (secs usecs : Nat) : TCB :=
  match tcb.established with
  | AppState.connect =>
      if (tcb.stream.map StreamM.is_scripting).getD false then tcb
      else
        { tcb with timer := some (secs + conf.timeout_hello, usecs),
                   tcpstate := TcpState.establishedRecv,
                   established := AppState.receiveHello }
  | AppState.receiveHello =>
      match action with
      | AppAction.recvTimeout =>
          match tcb.stream with
          | none => tcb
          | some s =>
              let tcb :=
                if conf.is_heartbleed then { tcb with is_small_window := true } else tcb
              if s.has_transmit_hello then applySends tcb oracle secs usecs
              else if s.hello.length ≠ 0 then
                tcp_seg_send s.hello.length tcb s.hello s.hello.length
                  TCPFlag.tstatic true secs usecs
              else tcb
      | AppAction.recvPayload =>
          -- sets established = App_ReceiveNext, then falls through to parse_banner
          applySends
            { tcb with established := AppState.receiveNext,
                       delivered := tcb.delivered ++ [payload] } oracle secs usecs
      | _ => tcb
  | AppState.receiveNext =>
      match action with
      | AppAction.recvPayload =>
          applySends { tcb with delivered := tcb.delivered ++ [payload] } oracle secs usecs
      | _ => tcb
  | AppState.sendNext =>
      match action with
      | AppAction.sendSent =>
          { tcb with tcpstate := TcpState.establishedRecv,
                     established := AppState.receiveNext }
      | _ => tcb

/-- Model of `_tcb_segment_recv`: pure-duplicate guard, overlap trimming,
delivery to the application bridge, advance of `seqno_them`/`ackno_me`, and
the acknowledging ACK.  Returns the C `int` result (1 = duplicate path). -/
def tcb_segment_recv (conf : TCPConf) (oracle : List SendReq) (tcb : TCB)
    (payload : List Nat) (seqno_them : Nat) (secs usecs : Nat) (is_fin : Bool) :
    TCB × Nat :=
  if payload.length < usub tcb.seqno_them seqno_them then
    (tcpcon_send_packet tcb 16 [], 1)
  else
    let payload := trimPayload seqno_them tcb.seqno_them payload
    if payload.length = 0 then (tcpcon_send_packet tcb 16 [], 1)
    else
      let tcb := application_notify conf oracle tcb AppAction.recvPayload payload secs usecs
      let finb : Nat := if is_fin then 1 else 0
      let tcb := { tcb with
          seqno_them := u32 (tcb.seqno_them + payload.length + finb),
          ackno_me := u32 (tcb.ackno_me + payload.length + finb) }
      (tcpcon_send_packet tcb 16 [], 0)

/-- C test `tcb->segments == NULL || tcb->segments->length == 0`. -/
def segsDrained : List TCPSegment → Bool
  | [] => true
  | seg :: _ => seg.length == 0

/-- C test `tcb->segments && tcb->segments->is_fin`. -/
def headIsFin : List TCPSegment → Bool
  | [] => false
  | seg :: _ => seg.is_fin

/-- The `STATE_SYN_SENT` case of the event switch in `stack_incoming_tcp`. -/
def tcp_ev_synsent (conf : TCPConf) (oracle : List SendReq) (tcb : TCB)
    (what : TCPWhat) (secs usecs : Nat) (seqno_them ackno_them : Nat) :
    Option (TCB × Nat) :=
  match what with
  | TCPWhat.timeout =>
      let tcb := { tcb with syns_sent := tcb.syns_sent + 1 }
      let tcb := tcpcon_send_packet tcb 2 []
      some ({ tcb with timer := some (secs + tcb.syns_sent, usecs) }, 1)
  | TCPWhat.synack =>
      let tcb := { tcb with
          seqno_them := seqno_them,
          seqno_them_first := usub seqno_them 1,
          seqno_me := ackno_them,
          seqno_me_first := usub ackno_them 1 }
      let tcb := tcpcon_send_packet tcb 16 []
      some (application_notify conf oracle tcb AppAction.connected [] secs usecs, 1)
  | _ => some (tcb, 1)

/-- The inner state switch of the `TCP_WHAT_ACK` case: arm the follow-up
timer, move `ESTABLISHED_SEND` to `ESTABLISHED_RECV` (notifying
`APP_SEND_SENT`) when the queue is drained, and `FIN_WAIT1` to `FIN_WAIT2`. -/
def tcp_ev_ack_post (conf : TCPConf) (oracle : List SendReq) (tcb : TCB)
    (secs usecs : Nat) : TCB :=
  match tcb.tcpstate with
  | TcpState.establishedSend =>
      if segsDrained tcb.segments then
        let tcb := { tcb with tcpstate := TcpState.establishedRecv }
        let tcb := application_notify conf oracle tcb AppAction.sendSent [] secs usecs
        { tcb with timer := some (secs + 10, usecs) }
      else tcb
  | TcpState.establishedRecv => { tcb with timer := some (secs + 1, usecs) }
  | TcpState.finWait1 =>
      if segsDrained tcb.segments then
        { tcb with tcpstate := TcpState.finWait2, timer := some (secs + 5, usecs) }
      else { tcb with timer := some (secs + 1, usecs) }
  | _ => tcb

/-- The shared `STATE_ESTABLISHED_SEND` / `STATE_ESTABLISHED_RECV` /
`STATE_FIN_WAIT1` case of the event switch in `stack_incoming_tcp`. -/
def tcp_ev_established (conf : TCPConf) (oracle : List SendReq) (tcb : TCB)
    (what : TCPWhat) (payload : List Nat) (secs usecs : Nat)
    (seqno_them ackno_them : Nat) : Option (TCB × Nat) :=
  match what with
  | TCPWhat.rst => some (tcb, 1) -- unreachable: RST is handled before the switch
  | TCPWhat.synack => some (tcpcon_send_packet tcb 16 [], 1)
  | TCPWhat.fin =>
      if tcb.tcpstate = TcpState.establishedRecv then
        some ({ tcb with tcpstate := TcpState.closeWait }, 1)
      else some (tcb, 1)
  | TCPWhat.ack =>
      let tcb := (tcp_seg_acknowledge tcb ackno_them).1
      let tcb := tcp_ev_ack_post conf oracle tcb secs usecs
      -- if the head (hence last remaining) segment is a FIN, go to FIN_WAIT1
      let tcb :=
        if headIsFin tcb.segments then { tcb with tcpstate := TcpState.finWait1 }
        else tcb
      some (tcb, 1)
  | TCPWhat.timeout =>
      match tcb.tcpstate with
      | TcpState.establishedRecv =>
          some (application_notify conf oracle tcb AppAction.recvTimeout [] secs usecs, 1)
      | TcpState.establishedSend | TcpState.finWait1 =>
          match tcp_seg_resend tcb secs usecs with
          | none => none
          | some tcb => some ({ tcb with timer := some (secs + 1, usecs) }, 1)
      | _ => some (tcb, 1)
  | TCPWhat.data =>
      some ((tcb_segment_recv conf oracle tcb payload seqno_them secs usecs false).1, 1)

/-- The shared `STATE_FIN_WAIT2` / `STATE_TIME_WAIT` case of the event
switch in `stack_incoming_tcp`. -/
def tcp_ev_finwait2 (conf : TCPConf) (oracle : List SendReq) (tcb : TCB)
    (what : TCPWhat) (secs usecs : Nat) (seqno_them : Nat) : Option (TCB × Nat) :=
  match what with
  | TCPWhat.timeout =>
      if tcb.tcpstate = TcpState.timeWait then some (tcpcon_destroy_tcb tcb, 1)
      else some (tcb, 1)
  | TCPWhat.fin =>
      -- process the incoming FIN as an empty payload
      let tcb := (tcb_segment_recv conf oracle tcb [] seqno_them secs usecs true).1
      some ({ tcb with tcpstate := TcpState.timeWait,
                       timer := some (secs + 5, usecs) }, 1)
  | _ => some (tcb, 1)

/-- Model of `stack_incoming_tcp`, the TCP state machine driver for a single
control block.  `oracle` is the list of sends issued by whichever parser
callback fires during the event.  `none` propagates the fatal
"SEQNO FAILURE" `exit(1)` of `_tcp_seg_resend`; otherwise the C function
returns 1 on every path that handles a non-null block. -/
def stack_incoming_tcp (conf : TCPConf) (oracle : List SendReq) (tcb : TCB)
    (what : TCPWhat) (payload : List Nat) (secs usecs : Nat)
    (seqno_them ackno_them : Nat) : Option (TCB × Nat) :=
  -- connection-wide deadline: send RST and destroy
  if what = TCPWhat.timeout ∧ tcb.when_created + conf.timeout_connection < secs then
    some (tcpcon_destroy_tcb (tcpcon_send_packet tcb 4 []), 1)
  else if what = TCPWhat.rst then
    some (tcpcon_destroy_tcb tcb, 1)
  else
    match tcb.tcpstate with
    | TcpState.synSent =>
        tcp_ev_synsent conf oracle tcb what secs usecs seqno_them ackno_them
    | TcpState.establishedSend | TcpState.establishedRecv | TcpState.finWait1 =>
        tcp_ev_established conf oracle tcb what payload secs usecs seqno_them ackno_them
    | TcpState.finWait2 | TcpState.timeWait =>
        tcp_ev_finwait2 conf oracle tcb what secs usecs seqno_them
    | TcpState.closeWait | TcpState.lastAck | TcpState.closing =>
        -- STATE_LAST_ACK only logs; CLOSE_WAIT and CLOSING hit the default log
        some (tcb, 1)

/-- The KLUDGE backstop at the bottom of the drain loop in `tcpcon_timeouts`:
if the block is still active but its timer entry is unlinked, re-add it at
`secs + 2`. -/
def timeout_backstop (tcb : TCB) (secs usecs : Nat) : TCB :=
  if tcb.timer.isNone && tcb.is_active then { tcb with timer := some (secs + 2, usecs) }
  else tcb

/-- One iteration of the drain loop in `tcpcon_timeouts` for an expired
block: `timeouts_remove` detaches the timer entry, `stack_incoming_tcp`
processes `TCP_WHAT_TIMEOUT`, then the backstop re-adds an unlinked active
block at `secs + 2`. -/
def tcpcon_timeouts_step (conf : TCPConf) (oracle : List SendReq) (tcb : TCB)
    (secs usecs : Nat) : Option TCB :=
  let tcb := { tcb with timer := none }
  match stack_incoming_tcp conf oracle tcb TCPWhat.timeout [] secs usecs
      tcb.seqno_them tcb.ackno_them with
  | none => none
  | some pr => some (timeout_backstop pr.1 secs usecs)

/-- Property: an active control block has a linked timer entry. -/
def ActiveHasTimer (t : TCB) : Prop := t.is_active = true → t.timer ≠ none

/-- `ActiveHasTimer` lifted over the fallible state machine result. -/
def OptionActiveHasTimer : Option (TCB × Nat) → Prop
  | none => True
  | some pr => ActiveHasTimer pr.1

/-- `ActiveHasTimer` lifted over the fallible driver-step result. -/
def OptionActiveHasTimerT : Option TCB → Prop
  | none => True
  | some t => ActiveHasTimer t

/-- Chaining predicate for a segment list: the first segment starts at
`start` (mod 2^32) and every later segment starts where its predecessor
ends (`tail.seq + tail.len`). -/
def segsChainedFrom (start : Nat) : List TCPSegment → Prop
  | [] => True
  | seg :: rest => seg.seqno = u32 start ∧ segsChainedFrom (seg.seqno + seg.length) rest

/-- The parsed ARP fields, C `struct ARP_IncomingRequest` (rawsock-arp.c).
The C `mac_src`/`mac_dst` pointers into the frame are modelled as the byte
suffixes they point at. -/
structure ARPIncomingRequest where
  is_valid : Nat
  opcode : Nat
  hardware_type : Nat
  protocol_type : Nat
  hardware_length : Nat
  protocol_length : Nat
  ip_src : Nat
  ip_dst : Nat
  mac_src : List Nat
  mac_dst : List Nat
deriving DecidableEq, Repr

/-- The zeroed struct both callers prepare with `memset` before parsing. -/
def zeroARP : ARPIncomingRequest :=
  { is_valid := 0, opcode := 0, hardware_type := 0, protocol_type := 0,
    hardware_length := 0, protocol_length := 0, ip_src := 0, ip_dst := 0,
    mac_src := [], mac_dst := [] }

/-- Big-endian 16-bit read `px[i] << 8 | px[i+1]`. -/
def be16 (px : List Nat) (i : Nat) : Nat :=
  px.getD i 0 * 256 + px.getD (i + 1) 0

/-- Big-endian 32-bit read `px[i] << 24 | ... | px[i+3]`. -/
def be32 (px : List Nat) (i : Nat) : Nat :=
  px.getD i 0 * 16777216 + px.getD (i + 1) 0 * 65536 +
    px.getD (i + 2) 0 * 256 + px.getD (i + 3) 0

/-- Model of `proto_arp_parse` (rawsock-arp.c).  `VERIFY_REMAINING(n)` is
`offset + n > max → return`; note the header check rejects only when BOTH
`protocol_length != 4` AND `hardware_length != 6`, as in the source. -/
def proto_arp_parse (arp : ARPIncomingRequest) (px : List Nat) (offset max : Nat) :
    ARPIncomingRequest :=
  if offset + 8 > max then arp
  else
    let a1 : ARPIncomingRequest :=
      { arp with
          is_valid := 0,
          hardware_type := be16 px offset,
          protocol_type := be16 px (offset + 2),
          hardware_length := px.getD (offset + 4) 0,
          protocol_length := px.getD (offset + 5) 0,
          opcode := be16 px (offset + 6) }
    let offset := offset + 8
    if a1.protocol_length ≠ 4 ∧ a1.hardware_length ≠ 6 then a1
    else if a1.protocol_type ≠ 2048 then a1
    else if a1.hardware_type ≠ 1 ∧ a1.hardware_type ≠ 6 then a1
    else if offset + (2 * a1.hardware_length + 2 * a1.protocol_length) > max then a1
    else
      let a2 := { a1 with mac_src := px.drop offset }
      let offset2 := offset + a1.hardware_length
      let a3 := { a2 with ip_src := be32 px offset2 }
      let offset3 := offset2 + a1.protocol_length
      let a4 := { a3 with mac_dst := px.drop offset3 }
      let offset4 := offset3 + a1.hardware_length
      { a4 with ip_dst := be32 px offset4, is_valid := 1 }

/-- The 64-byte reply frame `arp_response` builds over the zeroed buffer:
dst mac = requester's mac, src mac = ours, ethertype 0x0806, ARP reply
header, our mac/ip as sender, the requester's mac/ip as target. -/
def arp_reply_packet (my_ip : Nat) (my_mac : List Nat) (req : ARPIncomingRequest) :
    List Nat :=
  req.mac_src.take 6 ++ my_mac.take 6 ++ [8, 6] ++
  [0, 1, 8, 0, 6, 4, 0, 2] ++
  my_mac.take 6 ++
  [u8 (my_ip / 16777216), u8 (my_ip / 65536), u8 (my_ip / 256), u8 my_ip] ++
  req.mac_src.take 6 ++
  [u8 (req.ip_src / 16777216), u8 (req.ip_src / 65536), u8 (req.ip_src / 256),
   u8 req.ip_src] ++
  List.replicate 22 0

/-- Model of `arp_response` (rawsock-arp.c).  The function first dequeues a
transmit buffer from `packet_buffers` (spinning forever when none arrives:
modelled as `none`), then parses and validates; every rejection returns −1
while keeping the dequeued buffer (it is neither enqueued nor returned).
Result: `(return value, remaining free buffers, transmit queue)`. -/
def arp_response (my_ip : Nat) (my_mac : List Nat) (px : List Nat) (length : Nat)
    (packet_buffers : List (List Nat)) (transmit_queue : List (List Nat)) :
    Option (Int × List (List Nat) × List (List Nat)) :=
  match packet_buffers with
  | [] => none
  | _ :: rest =>
      let request := proto_arp_parse zeroARP px 14 length
      if request.is_valid = 0 then some (-1, rest, transmit_queue)
      else if request.opcode ≠ 1 then some (-1, rest, transmit_queue)
      else if request.ip_dst ≠ my_ip then some (-1, rest, transmit_queue)
      else some (0, rest, transmit_queue ++ [arp_reply_packet my_ip my_mac request])

/-- The bucketed connection table, C `struct TCP_ConnectionTable` (the parts
the create/lookup claims touch).  `entries` is the bucket array. -/
structure TCPTable where
  entries : List (List TCB)
  freed_list : List TCB
  mask : Nat
  active_count : Nat
  entropy : Nat
deriving Repr

/-- C `TCB_EQUALS`: identity comparison on ports and version-tagged
addresses. -/
def TCB_EQUALS (lhs rhs : TCB) : Bool :=
  if lhs.port_me ≠ rhs.port_me ∨ lhs.port_them ≠ rhs.port_them then false
  else if lhs.ip_me.version ≠ rhs.ip_me.version then false
  else if lhs.ip_me.version = 6 then
    (lhs.ip_me.v6hi == rhs.ip_me.v6hi && lhs.ip_me.v6lo == rhs.ip_me.v6lo) &&
    (lhs.ip_them.v6hi == rhs.ip_them.v6hi && lhs.ip_them.v6lo == rhs.ip_them.v6lo)
  else
    (lhs.ip_me.ipv4 == rhs.ip_me.ipv4) && (lhs.ip_them.ipv4 == rhs.ip_them.ipv4)

/-- The stack `tmp` block both `tcpcon_create_tcb` and `tcpcon_lookup_tcb`
build to drive `TCB_EQUALS` (ports truncated by the `unsigned short` cast). -/
def tmp_tcb (ip_me ip_them : IPAddr) (port_me port_them : Nat) : TCB :=
  { defaultTCB with ip_me := ip_me, ip_them := ip_them,
                    port_me := u16 port_me, port_them := u16 port_them }

/-- Model of `tcpcon_lookup_tcb`.  `hash` stands for `tcb_hash`, which wraps
the external `syn_cookie` (syn-cookie.c, outside src/); the bucket is
`index & mask`. -/
def tcpcon_lookup_tcb (hash : IPAddr → Nat → IPAddr → Nat → Nat → Nat)
    (tc : TCPTable) (ip_me ip_them : IPAddr) (port_me port_them : Nat) : Option TCB :=
  let tmp := tmp_tcb ip_me ip_them port_me port_them
  let index := hash ip_me port_me ip_them port_them tc.entropy
  (tc.entries.getD (index &&& tc.mask) []).find? (fun t => TCB_EQUALS t tmp)

/-- Model of `tcpcon_create_tcb`.  If a block with the same 4-tuple is found
in its bucket it is returned as-is; otherwise a block is taken from the
freelist (or malloc'd), zeroed, linked at the bucket head and initialized
(`mss = 1400`, acks mirroring the seqnos, stream defaulted from the per-port
`banner1->payloads.tcp` registry, here the `payloads` parameter).
The trailing debug `tcpcon_lookup_tcb` call has no effect. -/
def tcpcon_create_tcb (hash : IPAddr → Nat → IPAddr → Nat → Nat → Nat)
    (payloads : Nat → Option StreamM) (now : Nat) (tc : TCPTable)
    (ip_me ip_them : IPAddr) (port_me port_them : Nat)
    (seqno_me seqno_them : Nat) (ttl : Nat) (stream : Option StreamM) :
    TCPTable × TCB :=
  let tmp := tmp_tcb ip_me ip_them port_me port_them
  let index := hash ip_me port_me ip_them port_them tc.entropy
  let bucket := tc.entries.getD (index &&& tc.mask) []
  match bucket.find? (fun t => TCB_EQUALS t tmp) with
  | some tcb => (tc, tcb)
  | none =>
      let tcb : TCB :=
        { defaultTCB with
            ip_me := ip_me, ip_them := ip_them,
            port_me := u16 port_me, port_them := u16 port_them,
            seqno_them_first := seqno_them, seqno_me_first := seqno_me,
            seqno_me := seqno_me, seqno_them := seqno_them,
            ackno_me := seqno_them, ackno_them := seqno_me,
            when_created := now, ttl := ttl, mss := 1400,
            stream := (match stream with | some s => some s | none => payloads port_them),
            is_active := true }
      ({ tc with entries := tc.entries.set (index &&& tc.mask) (tcb :: bucket),
                 freed_list := tc.freed_list.tail,
                 active_count := tc.active_count + 1 }, tcb)

/-- Field-preservation contract of `_tcp_seg_send` (and of replayed parser
sends): the call touches only the segment queue, the transmit log, the TCP
phase and the timer — and never unlinks a linked timer. -/
@[reducible] def PreservesTCB (r t : TCB) : Prop :=
  r.is_active = t.is_active ∧ r.established = t.established
  ∧ r.delivered = t.delivered ∧ r.seqno_me = t.seqno_me
  ∧ r.seqno_them = t.seqno_them ∧ r.ackno_me = t.ackno_me
  ∧ r.mss = t.mss ∧ r.when_created = t.when_created
  ∧ (t.timer ≠ none → r.timer ≠ none)

/-- The weaker contract shared by every non-destroying helper of the state
machine: activity is untouched and a linked timer stays linked. -/
@[reducible] def PreservesCore (r t : TCB) : Prop :=
  r.is_active = t.is_active ∧ (t.timer ≠ none → r.timer ≠ none)

/-! ## Concrete instances used by witnesses and counterexamples -/

/-- A table configuration created with `connection_timeout = 0`. -/
def confW : TCPConf := tcpcon_create_table 0 99

/-- A block in `ESTABLISHED_SEND` holding one 100-byte outbound segment at
sequence 1000, with `seqno_me = 1000` (the queue invariant holds). -/
def tcbC1 : TCB := { defaultTCB with
  seqno_me := 1000
  ackno_them := 1000
  is_active := true
  mss := 1400
  tcpstate := TcpState.establishedSend
  timer := some (0, 0)
  segments := [{ seqno := 1000, length := 100, flags := TCPFlag.tstatic,
                 is_fin := false, buf := List.replicate 100 7 }] }

/-- A block with `seqno_me = 5000` and one queued segment. -/
def tcbC2 : TCB := { defaultTCB with
  seqno_me := 5000
  is_active := true
  mss := 1400
  tcpstate := TcpState.establishedSend
  segments := [{ seqno := 5000, length := 200, flags := TCPFlag.tstatic,
                 is_fin := false, buf := List.replicate 200 1 }] }

/-- An established block with an empty segment queue, `mss = 1400`,
`seqno_me = 1000`. -/
def tcbC3 : TCB := { defaultTCB with
  seqno_me := 1000
  is_active := true
  mss := 1400
  tcpstate := TcpState.establishedRecv }

/-- The 3500-byte buffer of the segment-split scenario. -/
def bufC3 : List Nat := List.replicate 3500 65

/-- An active established block in application phase `ReceiveNext` with a
linked timer (used by the C4 and C5 witnesses as a representative state). -/
def tcbC5w : TCB := { defaultTCB with
  tcpstate := TcpState.establishedRecv
  established := AppState.receiveNext
  is_active := true
  mss := 1400
  seqno_me := 100
  seqno_them := 5
  ackno_me := 5
  timer := some (0, 0) }

/-- An active block created at time 0 (any state), for the deadline witness. -/
def tcbC6w : TCB := { defaultTCB with
  tcpstate := TcpState.establishedRecv
  is_active := true
  when_created := 0
  timer := some (0, 0) }

/-- An ARP frame whose header fields are hardware type 1, protocol type
0x0800, hardware length 5 (not 6!), protocol length 4, opcode 1, followed by
the 18 address bytes these lengths require. -/
def pxC7 : List Nat := [0, 1, 8, 0, 5, 4, 0, 1] ++ List.replicate 18 3

/-- A block with an empty segment queue and no linked timer. -/
def tcbC9x : TCB := { defaultTCB with
  mss := 1400
  is_active := true
  tcpstate := TcpState.establishedRecv }

/-- A block whose identity is the 4-tuple (10, 30) → (20, 40), IPv4. -/
def tcbC8w : TCB := { defaultTCB with
  ip_me := ⟨4, 10, 0, 0⟩
  ip_them := ⟨4, 20, 0, 0⟩
  port_me := 30
  port_them := 40
  is_active := true
  mss := 1400 }

/-- A one-bucket table already holding `tcbC8w`. -/
def tableC8 : TCPTable :=
  { entries := [[tcbC8w]], freed_list := [], mask := 0, active_count := 1, entropy := 0 }

/-- A trivial stand-in for the external `tcb_hash`. -/
def hashC8 : IPAddr → Nat → IPAddr → Nat → Nat → Nat := fun _ _ _ _ _ => 0

/-! ## Claim theorems -/

/-- C1 (code bug): the spec's segment-queue invariant `head.seq == seq_local`
is NOT preserved by `_tcp_seg_acknowledge`.  On a block whose single
100-byte segment starts at 1000 with `seqno_me = 1000`, acknowledging 1100
returns 1 and advances `seqno_me` to 1100, but the retired segment is never
unlinked from the queue, so the head keeps sequence 1000; the next
`_tcp_seg_resend` then hits its fatal "SEQNO FAILURE" `exit(1)` (modelled as
`none`), i.e. the code contradicts its own internal assertion. -/
theorem c1_ack_retire_leaves_stale_head :
    (tcp_seg_acknowledge tcbC1 1100).2 = 1
    ∧ (tcp_seg_acknowledge tcbC1 1100).1.seqno_me = 1100
    ∧ (tcp_seg_acknowledge tcbC1 1100).1.segments.map TCPSegment.seqno = [1000]
    ∧ tcp_seg_resend (tcp_seg_acknowledge tcbC1 1100).1 5 0 = none := by
  refine ⟨by decide, by decide, by decide, by decide⟩

/-- C6: on a `TIMEOUT` event with `now − when_created > connection_timeout`
(the C test `when_created + timeout_connection < secs`), the state machine
sends an RST (flags 0x04) and destroys the block, in every TCP state; and a
table created with `connection_timeout = 0` gets the default 30-second
deadline. -/
theorem c6_connection_deadline_rst :
    ∀ (conf : TCPConf) (oracle : List SendReq) (tcb : TCB) (payload : List Nat)
      (secs usecs sq ak e : Nat),
      tcb.when_created + conf.timeout_connection < secs →
      stack_incoming_tcp conf oracle tcb TCPWhat.timeout payload secs usecs sq ak
          = some (tcpcon_destroy_tcb (tcpcon_send_packet tcb 4 []), 1)
      ∧ (tcpcon_create_table 0 e).timeout_connection = 30 := by
  intro conf oracle tcb payload secs usecs sq ak e h
  exact ⟨by simp [stack_incoming_tcp, h], rfl⟩

/-- C6 witness: a block created at time 0 under the default 30-second
deadline gets the RST-and-destroy treatment at time 100. -/
theorem c6_connection_deadline_rst_witness :
    tcbC6w.when_created + confW.timeout_connection < 100
    ∧ stack_incoming_tcp confW [] tcbC6w TCPWhat.timeout [] 100 0 0 0
        = some (tcpcon_destroy_tcb (tcpcon_send_packet tcbC6w 4 []), 1)
    ∧ (tcpcon_create_table 0 7).timeout_connection = 30 :=
  ⟨by decide,
   (c6_connection_deadline_rst confW [] tcbC6w [] 100 0 0 0 7 (by decide)).1,
   (c6_connection_deadline_rst confW [] tcbC6w [] 100 0 0 0 7 (by decide)).2⟩

/-- C7 counterexample: `proto_arp_parse` accepts a frame whose
`hardware_length` is 5, not 6 (its length check uses `&&`, so only frames
failing BOTH length requirements are rejected), contradicting the claim that
violating any one field requirement leaves `is_valid` at 0. -/
theorem c7_length_check_counterexample :
    (proto_arp_parse zeroARP pxC7 0 26).is_valid = 1
    ∧ (proto_arp_parse zeroARP pxC7 0 26).hardware_length = 5 := by
  refine ⟨by decide, by decide⟩

/-- C7 (amended): `proto_arp_parse` marks the result valid exactly when the
8-byte header fits, `protocol_length = 4` OR `hardware_length = 6` (a frame
is rejected on the length fields only when both are wrong), the protocol
type is 0x0800, the hardware type is 1 or 6, and the address fields fit in
the buffer. -/
theorem c7_parse_accept_amended :
    ∀ (px : List Nat) (offset max : Nat),
      (proto_arp_parse zeroARP px offset max).is_valid = 1 ↔
        (offset + 8 ≤ max
         ∧ (px.getD (offset + 5) 0 = 4 ∨ px.getD (offset + 4) 0 = 6)
         ∧ be16 px (offset + 2) = 2048
         ∧ (be16 px offset = 1 ∨ be16 px offset = 6)
         ∧ offset + 8 + (2 * px.getD (offset + 4) 0 + 2 * px.getD (offset + 5) 0) ≤ max) := by
  intro px offset max
  simp only [proto_arp_parse]
  split_ifs with h1 h2 h3 h4 h5 <;> simp_all [zeroARP] <;> omega

/-- C9 counterexample: a call to `_tcp_seg_send` with a zero-length buffer
and no FIN returns through the early `return`, before the `reset_timeout`
label, leaving the block (and in particular its unlinked timer) untouched —
no retransmit timer is scheduled, contradicting "every call ... schedules a
retransmit timer at now + 1s". -/
theorem c9_zero_send_counterexample :
    tcp_seg_send 0 tcbC9x [] 0 TCPFlag.tstatic false 5 0 = tcbC9x
    ∧ tcbC9x.timer = none := by
  refine ⟨by decide, by decide⟩

/-- C9 (amended): every call to `_tcp_seg_send` that requests a nonzero
length or a FIN (with the block's positive `mss = 1400`) schedules the
retransmit timer at `now + 1s`, on the append path, the immediate-transmit
path, and the refusal path when a FIN is already queued; only the
zero-length non-FIN call returns without touching the timer. -/
theorem c9_send_rearms_timer_amended :
    ∀ (fuel : Nat) (tcb : TCB) (buf : List Nat) (len : Nat) (fl : TCPFlag) (fin : Bool)
      (secs usecs : Nat),
      0 < tcb.mss → (0 < len ∨ fin = true) →
      (tcp_seg_send fuel tcb buf len fl fin secs usecs).timer = some (secs + 1, usecs) := by
  intro fuel tcb buf len fl fin secs usecs hm h
  have hearly : ¬(min tcb.mss len = 0 ∧ fin = false) := by
    rintro ⟨hz, hf⟩
    subst hf
    rcases h with hlen | hfin
    · omega
    · exact Bool.false_ne_true hfin
  rw [tcp_seg_send]
  simp only []
  rw [if_neg hearly]
  split <;> rfl

/-- C9 witness: a 10-byte send on an otherwise idle block at time 5 arms the
timer at (6, 0). -/
theorem c9_send_rearms_timer_amended_witness :
    0 < tcbC9x.mss
    ∧ (tcp_seg_send 10 tcbC9x (List.replicate 10 1) 10 TCPFlag.tstatic false 5 0).timer
        = some (6, 0) :=
  ⟨by decide,
   c9_send_rearms_timer_amended 10 tcbC9x (List.replicate 10 1) 10 TCPFlag.tstatic false 5 0
     (by decide) (Or.inl (by decide))⟩

/-- C10: `arp_response` dequeues a transmit buffer from the freelist before
validating the frame; on every rejection (invalid ARP, opcode ≠ request(1),
or target IP not ours) it returns −1 with that buffer gone from the freelist
and nothing added to the transmit queue — the buffer is leaked — while a
reply is enqueued exactly on the accepted path. -/
theorem c10_arp_reject_leaks_buffer :
    ∀ (my_ip : Nat) (my_mac px : List Nat) (length : Nat) (b : List Nat)
      (rest txq : List (List Nat)),
      (((proto_arp_parse zeroARP px 14 length).is_valid = 0
          ∨ (proto_arp_parse zeroARP px 14 length).opcode ≠ 1
          ∨ (proto_arp_parse zeroARP px 14 length).ip_dst ≠ my_ip) →
        arp_response my_ip my_mac px length (b :: rest) txq = some (-1, rest, txq))
      ∧ ((proto_arp_parse zeroARP px 14 length).is_valid ≠ 0 →
         (proto_arp_parse zeroARP px 14 length).opcode = 1 →
         (proto_arp_parse zeroARP px 14 length).ip_dst = my_ip →
        arp_response my_ip my_mac px length (b :: rest) txq
          = some (0, rest, txq ++ [arp_reply_packet my_ip my_mac
              (proto_arp_parse zeroARP px 14 length)])) := by
  intro my_ip my_mac px length b rest txq
  constructor
  · intro h
    simp only [arp_response]
    split_ifs with g1 g2 g3 <;> simp_all
  · intro h1 h2 h3
    simp only [arp_response]
    split_ifs with g1 g2 g3 <;> simp_all

/-- C10 witness: an empty frame parses as invalid; `arp_response` consumes
the sole free buffer and returns −1 with an unchanged transmit queue. -/
theorem c10_arp_reject_leaks_buffer_witness :
    (proto_arp_parse zeroARP [] 14 0).is_valid = 0
    ∧ arp_response 7 [1, 2, 3, 4, 5, 6] [] 0 [[0]] [] = some (-1, [], []) :=
  ⟨by decide,
   (c10_arp_reject_leaks_buffer 7 [1, 2, 3, 4, 5, 6] [] 0 [0] [] []).1
     (Or.inl (by decide))⟩

/-- C2: the guard structure of `_tcp_seg_acknowledge` over the full 32-bit
ack space: `ack = seqno_me` is a duplicate (returns 0, block unchanged);
`(ack − seqno_me) mod 2^32 > 100000` is a past ack and
`(seqno_me − ack) mod 2^32 < 100000` a future ack (both return 0, block
unchanged); the function reaches the retire path — returning 1 and recording
`ackno_them = ack` — exactly when `(ack − seqno_me) mod 2^32 ∈ [1, 100000]`,
and whenever it returns 0 the block is untouched. -/
theorem c2_acknowledge_window :
    ∀ (tcb : TCB) (ackno : Nat), tcb.seqno_me < 4294967296 → ackno < 4294967296 →
      (ackno = tcb.seqno_me → tcp_seg_acknowledge tcb ackno = (tcb, 0))
      ∧ (100000 < usub ackno tcb.seqno_me → tcp_seg_acknowledge tcb ackno = (tcb, 0))
      ∧ (usub tcb.seqno_me ackno < 100000 → tcp_seg_acknowledge tcb ackno = (tcb, 0))
      ∧ ((tcp_seg_acknowledge tcb ackno).2 = 1 ↔
          (1 ≤ usub ackno tcb.seqno_me ∧ usub ackno tcb.seqno_me ≤ 100000))
      ∧ ((tcp_seg_acknowledge tcb ackno).2 = 0 → (tcp_seg_acknowledge tcb ackno).1 = tcb)
      ∧ ((tcp_seg_acknowledge tcb ackno).2 = 1 →
          (tcp_seg_acknowledge tcb ackno).1.ackno_them = ackno) := by
  intro tcb ackno hs ha
  refine ⟨?_, ?_, ?_, ?_, ?_, ?_⟩
  · intro h
    simp [tcp_seg_acknowledge, h]
  · intro h
    have h1 : ackno ≠ tcb.seqno_me := by
      intro hc
      subst hc
      simp only [usub] at h
      omega
    simp [tcp_seg_acknowledge, h1, h]
  · intro h
    by_cases h1 : ackno = tcb.seqno_me
    · simp [tcp_seg_acknowledge, h1]
    · by_cases h2 : 100000 < usub ackno tcb.seqno_me
      · simp [tcp_seg_acknowledge, h1, h2]
      · simp [tcp_seg_acknowledge, h1, h2, h]
  · by_cases h1 : ackno = tcb.seqno_me
    · subst h1
      simp [tcp_seg_acknowledge, usub] <;> omega
    · by_cases h2 : 100000 < usub ackno tcb.seqno_me
      · simp [tcp_seg_acknowledge, h1, h2] <;> omega
      · by_cases h3 : usub tcb.seqno_me ackno < 100000
        · simp [tcp_seg_acknowledge, h1, h2, h3]
          simp only [usub] at h2 h3 ⊢
          omega
        · simp [tcp_seg_acknowledge, h1, h2, h3]
          simp only [usub] at h2 h3 ⊢
          omega
  · by_cases h1 : ackno = tcb.seqno_me
    · simp [tcp_seg_acknowledge, h1]
    · by_cases h2 : 100000 < usub ackno tcb.seqno_me
      · simp [tcp_seg_acknowledge, h1, h2]
      · by_cases h3 : usub tcb.seqno_me ackno < 100000
        · simp [tcp_seg_acknowledge, h1, h2, h3]
        · simp [tcp_seg_acknowledge, h1, h2, h3]
  · by_cases h1 : ackno = tcb.seqno_me
    · simp [tcp_seg_acknowledge, h1]
    · by_cases h2 : 100000 < usub ackno tcb.seqno_me
      · simp [tcp_seg_acknowledge, h1, h2]
      · by_cases h3 : usub tcb.seqno_me ackno < 100000
        · simp [tcp_seg_acknowledge, h1, h2, h3]
        · simp [tcp_seg_acknowledge, h1, h2, h3]

/-- C2 witness: on a block with `seqno_me = 5000`, the ack 5100 lies in the
[1, 100000] window and is accepted (result 1). -/
theorem c2_acknowledge_window_witness :
    tcbC2.seqno_me < 4294967296
    ∧ ((tcp_seg_acknowledge tcbC2 5100).2 = 1 ↔
        (1 ≤ usub 5100 tcbC2.seqno_me ∧ usub 5100 tcbC2.seqno_me ≤ 100000))
    ∧ (tcp_seg_acknowledge tcbC2 5100).2 = 1 :=
  ⟨by decide,
   (c2_acknowledge_window tcbC2 5100 (by decide) (by decide)).2.2.2.1,
   by decide⟩

/-- C8: `tcpcon_create_tcb` is idempotent: when a block matching the 4-tuple
is already reachable through its bucket (i.e. `tcpcon_lookup_tcb` finds it),
create returns exactly that block and the table is completely unchanged — no
bucket update, no freelist consumption, no `active_count` change. -/
theorem c8_create_tcb_idempotent :
    ∀ (hash : IPAddr → Nat → IPAddr → Nat → Nat → Nat)
      (payloads : Nat → Option StreamM) (now : Nat) (tc : TCPTable)
      (ip_me ip_them : IPAddr) (port_me port_them : Nat)
      (seqno_me seqno_them ttl : Nat) (stream : Option StreamM) (t : TCB),
      tcpcon_lookup_tcb hash tc ip_me ip_them port_me port_them = some t →
      tcpcon_create_tcb hash payloads now tc ip_me ip_them port_me port_them
          seqno_me seqno_them ttl stream = (tc, t) := by
  intro hash payloads now tc ip_me ip_them port_me port_them sm st ttl stream t h
  simp only [tcpcon_lookup_tcb] at h
  simp only [tcpcon_create_tcb]
  rw [h]

/-- C8 witness: on a one-bucket table already holding the block for
(10, 30) → (20, 40), create with the same 4-tuple returns the table and the
existing block unchanged. -/
theorem c8_create_tcb_idempotent_witness :
    tcpcon_lookup_tcb hashC8 tableC8 ⟨4, 10, 0, 0⟩ ⟨4, 20, 0, 0⟩ 30 40 = some tcbC8w
    ∧ tcpcon_create_tcb hashC8 (fun _ => none) 0 tableC8 ⟨4, 10, 0, 0⟩ ⟨4, 20, 0, 0⟩
        30 40 1 2 3 none = (tableC8, tcbC8w) :=
  ⟨by decide,
   c8_create_tcb_idempotent hashC8 (fun _ => none) 0 tableC8 ⟨4, 10, 0, 0⟩ ⟨4, 20, 0, 0⟩
     30 40 1 2 3 none tcbC8w (by decide)⟩

/-! ## Field-preservation lemmas for the state-machine helpers -/

@[simp] theorem send_packet_is_active (t : TCB) (f : Nat) (p : List Nat) :
    (tcpcon_send_packet t f p).is_active = t.is_active := rfl

@[simp] theorem send_packet_established (t : TCB) (f : Nat) (p : List Nat) :
    (tcpcon_send_packet t f p).established = t.established := rfl

@[simp] theorem send_packet_delivered (t : TCB) (f : Nat) (p : List Nat) :
    (tcpcon_send_packet t f p).delivered = t.delivered := rfl

@[simp] theorem send_packet_seqno_me (t : TCB) (f : Nat) (p : List Nat) :
    (tcpcon_send_packet t f p).seqno_me = t.seqno_me := rfl

@[simp] theorem send_packet_seqno_them (t : TCB) (f : Nat) (p : List Nat) :
    (tcpcon_send_packet t f p).seqno_them = t.seqno_them := rfl

@[simp] theorem send_packet_ackno_me (t : TCB) (f : Nat) (p : List Nat) :
    (tcpcon_send_packet t f p).ackno_me = t.ackno_me := rfl

@[simp] theorem send_packet_mss (t : TCB) (f : Nat) (p : List Nat) :
    (tcpcon_send_packet t f p).mss = t.mss := rfl

@[simp] theorem send_packet_when_created (t : TCB) (f : Nat) (p : List Nat) :
    (tcpcon_send_packet t f p).when_created = t.when_created := rfl

@[simp] theorem send_packet_timer (t : TCB) (f : Nat) (p : List Nat) :
    (tcpcon_send_packet t f p).timer = t.timer := rfl

@[simp] theorem send_packet_tcpstate (t : TCB) (f : Nat) (p : List Nat) :
    (tcpcon_send_packet t f p).tcpstate = t.tcpstate := rfl

@[simp] theorem send_packet_segments (t : TCB) (f : Nat) (p : List Nat) :
    (tcpcon_send_packet t f p).segments = t.segments := rfl

@[simp] theorem destroy_tcb_is_active (t : TCB) :
    (tcpcon_destroy_tcb t).is_active = false := rfl

@[simp] theorem destroy_tcb_timer (t : TCB) :
    (tcpcon_destroy_tcb t).timer = none := rfl

theorem preservesTCB_refl (t : TCB) : PreservesTCB t t :=
  ⟨rfl, rfl, rfl, rfl, rfl, rfl, rfl, rfl, fun h => h⟩

theorem preservesTCB_trans {a b c : TCB}
    (h1 : PreservesTCB b a) (h2 : PreservesTCB c b) : PreservesTCB c a := by
  obtain ⟨a1, a2, a3, a4, a5, a6, a7, a8, a9⟩ := h1
  obtain ⟨b1, b2, b3, b4, b5, b6, b7, b8, b9⟩ := h2
  exact ⟨b1.trans a1, b2.trans a2, b3.trans a3, b4.trans a4, b5.trans a5,
         b6.trans a6, b7.trans a7, b8.trans a8, fun h => b9 (a9 h)⟩

theorem preservesTCB_core {r t : TCB} (h : PreservesTCB r t) : PreservesCore r t :=
  ⟨h.1, h.2.2.2.2.2.2.2.2⟩

theorem preservesCore_refl (t : TCB) : PreservesCore t t := ⟨rfl, fun h => h⟩

theorem preservesCore_trans {a b c : TCB}
    (h1 : PreservesCore b a) (h2 : PreservesCore c b) : PreservesCore c a :=
  ⟨h2.1.trans h1.1, fun h => h2.2 (h1.2 h)⟩

/-- Setting the timer preserves every other field. -/
theorem timer_update_preserves (t : TCB) (v : Nat × Nat) :
    PreservesTCB { t with timer := some v } t :=
  ⟨rfl, rfl, rfl, rfl, rfl, rfl, rfl, rfl, fun _ => by simp⟩

theorem tcp_seg_append_preserves (t : TCB) (seg : TCPSegment) (fin : Bool) :
    PreservesTCB (tcp_seg_append t seg fin) t := by
  unfold tcp_seg_append
  split <;> exact ⟨rfl, rfl, rfl, rfl, rfl, rfl, rfl, rfl, fun h => h⟩

theorem tcp_seg_append_segments (t : TCB) (seg : TCPSegment) (fin : Bool) :
    (tcp_seg_append t seg fin).segments = t.segments ++ [seg] := by
  unfold tcp_seg_append
  split <;> rfl

/-- `_tcp_seg_send` only touches the segment queue, the transmit log, the
TCP phase and the timer (which it never unlinks). -/
theorem tcp_seg_send_preserves :
    ∀ (fuel : Nat) (tcb : TCB) (buf : List Nat) (len : Nat) (fl : TCPFlag) (fin : Bool)
      (secs usecs : Nat),
      PreservesTCB (tcp_seg_send fuel tcb buf len fl fin secs usecs) tcb := by
  intro fuel
  induction fuel with
  | zero =>
      intro tcb buf len fl fin secs usecs
      rw [tcp_seg_send]
      simp only []
      split
      · exact preservesTCB_refl tcb
      · split
        · exact timer_update_preserves tcb _
        · split
          · exact preservesTCB_trans (tcp_seg_append_preserves tcb _ fin)
              (timer_update_preserves _ _)
          · exact preservesTCB_trans (tcp_seg_append_preserves tcb _ fin)
              (timer_update_preserves _ _)
  | succ f ih =>
      intro tcb buf len fl fin secs usecs
      rw [tcp_seg_send]
      simp only []
      split
      · exact preservesTCB_refl tcb
      · split
        · exact timer_update_preserves tcb _
        · split
          · exact preservesTCB_trans
              (preservesTCB_trans (tcp_seg_append_preserves tcb _ fin)
                (ih _ _ _ _ _ _ _))
              (timer_update_preserves _ _)
          · exact preservesTCB_trans (tcp_seg_append_preserves tcb _ fin)
              (timer_update_preserves _ _)

theorem applySends_preserves :
    ∀ (reqs : List SendReq) (tcb : TCB) (secs usecs : Nat),
      PreservesTCB (applySends tcb reqs secs usecs) tcb := by
  intro reqs
  induction reqs with
  | nil => intro tcb secs usecs; exact preservesTCB_refl tcb
  | cons r rest ih =>
      intro tcb secs usecs
      rw [applySends]
      exact preservesTCB_trans (tcp_seg_send_preserves _ _ _ _ _ _ _ _) (ih _ _ _)

/-- `_tcp_seg_acknowledge` touches only the segment queue, `seqno_me` and
`ackno_them`. -/
theorem tcp_seg_acknowledge_fields (t : TCB) (a : Nat) :
    (tcp_seg_acknowledge t a).1.is_active = t.is_active
    ∧ (tcp_seg_acknowledge t a).1.timer = t.timer
    ∧ (tcp_seg_acknowledge t a).1.tcpstate = t.tcpstate
    ∧ (tcp_seg_acknowledge t a).1.established = t.established
    ∧ (tcp_seg_acknowledge t a).1.delivered = t.delivered
    ∧ (tcp_seg_acknowledge t a).1.seqno_them = t.seqno_them
    ∧ (tcp_seg_acknowledge t a).1.ackno_me = t.ackno_me
    ∧ (tcp_seg_acknowledge t a).1.when_created = t.when_created := by
  unfold tcp_seg_acknowledge
  split_ifs <;> simp

/-- A successful `_tcp_seg_resend` rearms the timer at `secs + 2` and leaves
activity untouched. -/
theorem tcp_seg_resend_some (t : TCB) (secs usecs : Nat) :
    ∀ r, tcp_seg_resend t secs usecs = some r →
      r.is_active = t.is_active ∧ r.timer = some (secs + 2, usecs) := by
  intro r h
  unfold tcp_seg_resend at h
  split at h
  · cases h
    exact ⟨rfl, rfl⟩
  · split_ifs at h <;> (cases h; try exact ⟨rfl, rfl⟩)

/-- Replayed parser sends preserve activity and a linked timer, stated
against any base block whose activity and timer agree with the send's
starting block. -/
theorem applySends_core_any (reqs : List SendReq) (b t : TCB) (secs usecs : Nat)
    (hb1 : b.is_active = t.is_active) (hb2 : t.timer ≠ none → b.timer ≠ none) :
    PreservesCore (applySends b reqs secs usecs) t := by
  have h := preservesTCB_core (applySends_preserves reqs b secs usecs)
  exact ⟨h.1.trans hb1, fun hh => h.2 (hb2 hh)⟩

/-- Same for a single `_tcp_seg_send` call. -/
theorem tcp_seg_send_core_any (fuel : Nat) (b t : TCB) (buf : List Nat) (len : Nat)
    (fl : TCPFlag) (fin : Bool) (secs usecs : Nat)
    (hb1 : b.is_active = t.is_active) (hb2 : t.timer ≠ none → b.timer ≠ none) :
    PreservesCore (tcp_seg_send fuel b buf len fl fin secs usecs) t := by
  have h := preservesTCB_core (tcp_seg_send_preserves fuel b buf len fl fin secs usecs)
  exact ⟨h.1.trans hb1, fun hh => h.2 (hb2 hh)⟩

theorem application_notify_core (conf : TCPConf) (oracle : List SendReq) (t : TCB)
    (action : AppAction) (payload : List Nat) (secs usecs : Nat) :
    PreservesCore (application_notify conf oracle t action payload secs usecs) t := by
  unfold application_notify
  split
  · -- App_Connect
    split
    · exact preservesCore_refl t
    · exact ⟨rfl, fun _ => by simp⟩
  · -- App_ReceiveHello
    split
    · -- APP_RECV_TIMEOUT
      split
      · exact preservesCore_refl t
      · -- the heartbleed small-window update, then the hello choice
        split
        all_goals
          split
          · exact applySends_core_any oracle _ t secs usecs rfl (fun hh => hh)
          · split
            · exact tcp_seg_send_core_any _ _ t _ _ _ _ secs usecs rfl (fun hh => hh)
            · exact ⟨rfl, fun h => h⟩
    · -- APP_RECV_PAYLOAD: deliver then replay the parser's sends
      have h := preservesTCB_core (applySends_preserves oracle
        { t with established := AppState.receiveNext,
                 delivered := t.delivered ++ [payload] } secs usecs)
      exact ⟨h.1, fun hh => h.2 hh⟩
    · exact preservesCore_refl t
  · -- App_ReceiveNext
    split
    · have h := preservesTCB_core (applySends_preserves oracle
        { t with delivered := t.delivered ++ [payload] } secs usecs)
      exact ⟨h.1, fun hh => h.2 hh⟩
    · exact preservesCore_refl t
  · -- App_SendNext
    split
    · exact ⟨rfl, fun h => h⟩
    · exact preservesCore_refl t

theorem tcb_segment_recv_core (conf : TCPConf) (oracle : List SendReq) (t : TCB)
    (payload : List Nat) (sq secs usecs : Nat) (is_fin : Bool) :
    PreservesCore (tcb_segment_recv conf oracle t payload sq secs usecs is_fin).1 t := by
  unfold tcb_segment_recv
  simp only []
  split_ifs
  all_goals first
    | exact ⟨rfl, fun h => h⟩
    | (have h := application_notify_core conf oracle t AppAction.recvPayload
          (trimPayload sq t.seqno_them payload) secs usecs
       exact ⟨h.1, fun hh => h.2 hh⟩)

theorem tcp_ev_ack_post_core (conf : TCPConf) (oracle : List SendReq) (t : TCB)
    (secs usecs : Nat) :
    PreservesCore (tcp_ev_ack_post conf oracle t secs usecs) t := by
  unfold tcp_ev_ack_post
  split
  · split
    · have h := application_notify_core conf oracle
        { t with tcpstate := TcpState.establishedRecv } AppAction.sendSent [] secs usecs
      exact ⟨h.1, fun _ => by simp⟩
    · exact preservesCore_refl t
  · exact ⟨rfl, fun _ => by simp⟩
  · split
    · exact ⟨rfl, fun _ => by simp⟩
    · exact ⟨rfl, fun _ => by simp⟩
  · exact preservesCore_refl t

theorem tcp_ev_synsent_core (conf : TCPConf) (oracle : List SendReq) (t : TCB)
    (what : TCPWhat) (secs usecs sq ak : Nat) :
    ∀ r n, tcp_ev_synsent conf oracle t what secs usecs sq ak = some (r, n) →
      PreservesCore r t := by
  intro r n h
  unfold tcp_ev_synsent at h
  split at h
  · cases h
    exact ⟨rfl, fun _ => by simp⟩
  · cases h
    have hc := application_notify_core conf oracle
      (tcpcon_send_packet
        { t with seqno_them := sq, seqno_them_first := usub sq 1,
                 seqno_me := ak, seqno_me_first := usub ak 1 } 16 [])
      AppAction.connected [] secs usecs
    exact ⟨hc.1, fun hh => hc.2 hh⟩
  all_goals (cases h; exact preservesCore_refl t)

theorem tcp_ev_established_core (conf : TCPConf) (oracle : List SendReq) (t : TCB)
    (what : TCPWhat) (payload : List Nat) (secs usecs sq ak : Nat) :
    ∀ r n, tcp_ev_established conf oracle t what payload secs usecs sq ak = some (r, n) →
      PreservesCore r t := by
  intro r n h
  unfold tcp_ev_established at h
  split at h
  · cases h; exact preservesCore_refl t
  · cases h; exact ⟨rfl, fun hh => hh⟩
  · split_ifs at h <;> (cases h; first | exact ⟨rfl, fun hh => hh⟩ | exact preservesCore_refl t)
  · -- ACK: acknowledge, then the post-state switch, then the FIN check
    cases h
    have hack := tcp_seg_acknowledge_fields t ak
    have h1 : PreservesCore (tcp_seg_acknowledge t ak).1 t :=
      ⟨hack.1, fun hh => by rw [hack.2.1]; exact hh⟩
    have h2 := tcp_ev_ack_post_core conf oracle (tcp_seg_acknowledge t ak).1 secs usecs
    refine preservesCore_trans (preservesCore_trans h1 h2) ?_
    split
    · exact ⟨rfl, fun hh => hh⟩
    · exact preservesCore_refl _
  · -- TIMEOUT
    split at h
    all_goals first
      | (cases h
         exact application_notify_core conf oracle t AppAction.recvTimeout [] secs usecs)
      | (cases h
         exact preservesCore_refl t)
      | (split at h
         · cases h
         · rename_i t2 hres
           cases h
           exact ⟨(tcp_seg_resend_some t secs usecs t2 hres).1, fun _ => by simp⟩)
  · -- DATA
    cases h
    exact tcb_segment_recv_core conf oracle t payload sq secs usecs false

theorem tcp_ev_finwait2_core (conf : TCPConf) (oracle : List SendReq) (t : TCB)
    (what : TCPWhat) (secs usecs sq : Nat) :
    ∀ r n, tcp_ev_finwait2 conf oracle t what secs usecs sq = some (r, n) →
      r.is_active = false ∨ PreservesCore r t := by
  intro r n h
  unfold tcp_ev_finwait2 at h
  split at h
  · split_ifs at h
    · cases h; exact Or.inl (by simp)
    · cases h; exact Or.inr (preservesCore_refl t)
  · cases h
    have hc := tcb_segment_recv_core conf oracle t [] sq secs usecs true
    exact Or.inr ⟨hc.1, fun _ => by simp⟩
  all_goals (cases h; exact Or.inr (preservesCore_refl t))

/-! ## C4 -/

/-- C4: the timer backstop.  (1) After an event is dispatched, the KLUDGE at
the bottom of `tcpcon_timeouts`' drain loop schedules a default `now + 2s`
timeout for a still-active block whose timer entry is unlinked; (2) hence a
driver step never leaves an active block without a linked timer; and (3) for
every event delivered to `stack_incoming_tcp`, an active block with a linked
timer entry remains, if still active, with a linked timer entry — so every
active block always has a linked timer. -/
theorem c4_timer_backstop :
    ∀ (conf : TCPConf) (oracle : List SendReq) (tcb : TCB) (secs usecs : Nat)
      (what : TCPWhat) (payload : List Nat) (sq ak : Nat),
      (tcb.is_active = true → tcb.timer = none →
        timeout_backstop tcb secs usecs = { tcb with timer := some (secs + 2, usecs) })
      ∧ OptionActiveHasTimerT (tcpcon_timeouts_step conf oracle tcb secs usecs)
      ∧ (ActiveHasTimer tcb →
          OptionActiveHasTimer (stack_incoming_tcp conf oracle tcb what payload secs usecs sq ak)) := by
  intro conf oracle tcb secs usecs what payload sq ak
  refine ⟨?_, ?_, ?_⟩
  · intro ha ht
    simp [timeout_backstop, ha, ht]
  · unfold tcpcon_timeouts_step
    rcases hres : stack_incoming_tcp conf oracle { tcb with timer := none }
        TCPWhat.timeout [] secs usecs tcb.seqno_them tcb.ackno_them with _ | pr
    · simp [hres, OptionActiveHasTimerT]
    · simp only [hres, OptionActiveHasTimerT]
      unfold ActiveHasTimer timeout_backstop
      by_cases hc : pr.1.timer.isNone && pr.1.is_active
      · rw [if_pos hc]
        intro _
        simp
      · rw [if_neg hc]
        intro hact htm
        apply hc
        rw [htm, hact]
        rfl
  · intro hAT
    unfold stack_incoming_tcp
    split_ifs with h1 h2
    · simp [OptionActiveHasTimer, ActiveHasTimer]
    · simp [OptionActiveHasTimer, ActiveHasTimer]
    · rcases hst : tcb.tcpstate <;> simp only [hst]
      -- SYN_SENT
      · rcases hev : tcp_ev_synsent conf oracle tcb what secs usecs sq ak with _ | ⟨r, n⟩
        · simp [hev, OptionActiveHasTimer]
        · simp only [hev, OptionActiveHasTimer]
          have hc := tcp_ev_synsent_core conf oracle tcb what secs usecs sq ak r n hev
          intro hact
          exact hc.2 (hAT (by rw [← hc.1]; exact hact))
      -- ESTABLISHED_SEND
      · rcases hev : tcp_ev_established conf oracle tcb what payload secs usecs sq ak with _ | ⟨r, n⟩
        · simp [hev, OptionActiveHasTimer]
        · simp only [hev, OptionActiveHasTimer]
          have hc := tcp_ev_established_core conf oracle tcb what payload secs usecs sq ak r n hev
          intro hact
          exact hc.2 (hAT (by rw [← hc.1]; exact hact))
      -- ESTABLISHED_RECV
      · rcases hev : tcp_ev_established conf oracle tcb what payload secs usecs sq ak with _ | ⟨r, n⟩
        · simp [hev, OptionActiveHasTimer]
        · simp only [hev, OptionActiveHasTimer]
          have hc := tcp_ev_established_core conf oracle tcb what payload secs usecs sq ak r n hev
          intro hact
          exact hc.2 (hAT (by rw [← hc.1]; exact hact))
      -- CLOSE_WAIT
      · exact hAT
      -- LAST_ACK
      · exact hAT
      -- FIN_WAIT1
      · rcases hev : tcp_ev_established conf oracle tcb what payload secs usecs sq ak with _ | ⟨r, n⟩
        · simp [hev, OptionActiveHasTimer]
        · simp only [hev, OptionActiveHasTimer]
          have hc := tcp_ev_established_core conf oracle tcb what payload secs usecs sq ak r n hev
          intro hact
          exact hc.2 (hAT (by rw [← hc.1]; exact hact))
      -- FIN_WAIT2
      · rcases hev : tcp_ev_finwait2 conf oracle tcb what secs usecs sq with _ | ⟨r, n⟩
        · simp [hev, OptionActiveHasTimer]
        · simp only [hev, OptionActiveHasTimer]
          rcases tcp_ev_finwait2_core conf oracle tcb what secs usecs sq r n hev with hd | hp
          · intro hact; rw [hd] at hact; exact absurd hact (by simp)
          · intro hact
            exact hp.2 (hAT (by rw [← hp.1]; exact hact))
      -- CLOSING
      · exact hAT
      -- TIME_WAIT
      · rcases hev : tcp_ev_finwait2 conf oracle tcb what secs usecs sq with _ | ⟨r, n⟩
        · simp [hev, OptionActiveHasTimer]
        · simp only [hev, OptionActiveHasTimer]
          rcases tcp_ev_finwait2_core conf oracle tcb what secs usecs sq r n hev with hd | hp
          · intro hact; rw [hd] at hact; exact absurd hact (by simp)
          · intro hact
            exact hp.2 (hAT (by rw [← hp.1]; exact hact))

/-- C4 witness: the backstop rearms an active, timer-less block at
`secs + 2`; a concrete driver step and a concrete FIN event keep the
active-implies-linked-timer property. -/
theorem c4_timer_backstop_witness :
    timeout_backstop tcbC9x 5 0 = { tcbC9x with timer := some (7, 0) }
    ∧ OptionActiveHasTimerT (tcpcon_timeouts_step confW [] tcbC5w 5 0)
    ∧ OptionActiveHasTimer (stack_incoming_tcp confW [] tcbC5w TCPWhat.fin [] 1 0 0 0) :=
  ⟨(c4_timer_backstop confW [] tcbC9x 5 0 TCPWhat.fin [] 0 0).1 (by decide) (by decide),
   (c4_timer_backstop confW [] tcbC5w 5 0 TCPWhat.fin [] 0 0).2.1,
   (c4_timer_backstop confW [] tcbC5w 1 0 TCPWhat.fin [] 0 0).2.2
     (fun _ => by decide)⟩

/-! ## C5 -/

/-- The trimming loop is the identity when the segment starts exactly at the
expected sequence number. -/
theorem trimPayload_self (p : List Nat) (s : Nat) : trimPayload s s p = p := by
  cases p with
  | nil => rfl
  | cons b rest => simp [trimPayload]

/-- The trimming loop consumes the entire payload when the expected sequence
number sits exactly at its end (the fully-duplicate case). -/
theorem trimPayload_consume :
    ∀ (p : List Nat) (s : Nat), s < 4294967296 → p.length < 4294967296 →
      trimPayload s (u32 (s + p.length)) p = [] := by
  intro p
  induction p with
  | nil => intro s _ _; rfl
  | cons b rest ih =>
      intro s hs hl
      rw [trimPayload]
      rw [if_neg]
      · have heq : u32 (s + (b :: rest).length) = u32 (u32 (s + 1) + rest.length) := by
          simp only [u32, List.length_cons]
          omega
        rw [heq]
        exact ih (u32 (s + 1)) (by simp only [u32]; omega)
          (by simp only [List.length_cons] at hl; omega)
      · intro hc
        simp only [u32, List.length_cons] at hc
        simp only [List.length_cons] at hl
        omega

/-- Unsigned wraparound arithmetic: advancing a 32-bit sequence number by
`n < 2^32` and subtracting the base yields `n`. -/
theorem usub_u32_add (s n : Nat) (hs : s < 4294967296) (hn : n < 4294967296) :
    usub (u32 (s + n)) s = n := by
  simp only [usub, u32]
  omega

/-- C5: delivering the same in-order `(seq, payload)` twice through
`_tcb_segment_recv` hands the payload to the banner parser exactly once: the
first call records it in `delivered` and advances `seqno_them`; the second
call trims the whole payload away as an already-received overlap, returns 1,
sends a bare ACK, and leaves `seqno_them`, `ackno_me` and `delivered`
untouched (its entire effect is the ACK). -/
theorem c5_duplicate_data_idempotent :
    ∀ (conf : TCPConf) (o1 o2 : List SendReq) (tcb : TCB) (p : List Nat)
      (secs usecs secs2 usecs2 : Nat),
      tcb.established = AppState.receiveNext →
      tcb.seqno_them < 4294967296 →
      0 < p.length → p.length < 4294967296 →
      ((tcb_segment_recv conf o1 tcb p tcb.seqno_them secs usecs false).1.delivered
          = tcb.delivered ++ [p]
       ∧ (tcb_segment_recv conf o2
            (tcb_segment_recv conf o1 tcb p tcb.seqno_them secs usecs false).1
            p tcb.seqno_them secs2 usecs2 false).2 = 1
       ∧ tcb_segment_recv conf o2
            (tcb_segment_recv conf o1 tcb p tcb.seqno_them secs usecs false).1
            p tcb.seqno_them secs2 usecs2 false
          = (tcpcon_send_packet
              (tcb_segment_recv conf o1 tcb p tcb.seqno_them secs usecs false).1 16 [], 1)) := by
  intro conf o1 o2 tcb p secs usecs secs2 usecs2 hest hwf hp hpM
  have hguard1 : ¬(p.length < usub tcb.seqno_them tcb.seqno_them) := by
    simp only [usub]
    omega
  have key : (tcb_segment_recv conf o1 tcb p tcb.seqno_them secs usecs false).1.delivered
        = tcb.delivered ++ [p]
      ∧ (tcb_segment_recv conf o1 tcb p tcb.seqno_them secs usecs false).1.seqno_them
        = u32 (tcb.seqno_them + p.length) := by
    unfold tcb_segment_recv
    rw [if_neg hguard1]
    simp only []
    rw [trimPayload_self]
    rw [if_neg (by omega : ¬(p.length = 0))]
    unfold application_notify
    rw [hest]
    simp only []
    have hA := applySends_preserves o1
      { tcb with established := AppState.receiveNext,
                 delivered := tcb.delivered ++ [p] } secs usecs
    constructor
    · exact hA.2.2.1
    · show u32 ((applySends
          { tcb with established := AppState.receiveNext,
                     delivered := tcb.delivered ++ [p] } o1 secs usecs).seqno_them
          + p.length + 0) = u32 (tcb.seqno_them + p.length)
      rw [hA.2.2.2.2.1]
      simp
  obtain ⟨ht1d, ht1s⟩ := key
  set T1 := (tcb_segment_recv conf o1 tcb p tcb.seqno_them secs usecs false).1 with hT1
  have hguard2 : ¬(p.length < usub T1.seqno_them tcb.seqno_them) := by
    rw [ht1s, usub_u32_add tcb.seqno_them p.length hwf hpM]
    omega
  have htrim2 : trimPayload tcb.seqno_them T1.seqno_them p = [] := by
    rw [ht1s]
    exact trimPayload_consume p tcb.seqno_them hwf hpM
  have hr2 : tcb_segment_recv conf o2 T1 p tcb.seqno_them secs2 usecs2 false
      = (tcpcon_send_packet T1 16 [], 1) := by
    unfold tcb_segment_recv
    rw [if_neg hguard2]
    simp only []
    rw [htrim2]
    simp
  exact ⟨ht1d, by rw [hr2], hr2⟩

/-- C5 witness: a fresh 3-byte segment at `seqno_them = 5` is delivered once;
replaying it is ACKed with no state change. -/
theorem c5_duplicate_data_idempotent_witness :
    tcbC5w.established = AppState.receiveNext
    ∧ (tcb_segment_recv confW [] tcbC5w [9, 8, 7] tcbC5w.seqno_them 1 0 false).1.delivered
        = tcbC5w.delivered ++ [[9, 8, 7]]
    ∧ tcb_segment_recv confW []
        (tcb_segment_recv confW [] tcbC5w [9, 8, 7] tcbC5w.seqno_them 1 0 false).1
        [9, 8, 7] tcbC5w.seqno_them 2 0 false
      = (tcpcon_send_packet
          (tcb_segment_recv confW [] tcbC5w [9, 8, 7] tcbC5w.seqno_them 1 0 false).1 16 [], 1) :=
  ⟨by decide,
   (c5_duplicate_data_idempotent confW [] [] tcbC5w [9, 8, 7] 1 0 2 0
     (by decide) (by decide) (by decide) (by decide)).1,
   (c5_duplicate_data_idempotent confW [] [] tcbC5w [9, 8, 7] 1 0 2 0
     (by decide) (by decide) (by decide) (by decide)).2.2⟩

/-! ## C3 -/

@[simp] theorem tcp_seg_append_mss (t : TCB) (seg : TCPSegment) (fin : Bool) :
    (tcp_seg_append t seg fin).mss = t.mss := by
  unfold tcp_seg_append
  split <;> rfl

@[simp] theorem tcp_seg_append_seqno_me (t : TCB) (seg : TCPSegment) (fin : Bool) :
    (tcp_seg_append t seg fin).seqno_me = t.seqno_me := by
  unfold tcp_seg_append
  split <;> rfl

/-- Appending one segment moves the tail-walk end to its end. -/
theorem tailSeqno_append (s : Nat) (l : List TCPSegment) (g : TCPSegment) :
    tailSeqno s (l ++ [g]) = u32 (g.seqno + g.length) := by
  induction l generalizing s with
  | nil => rfl
  | cons a t ih => exact ih _

/-- The chain start only matters modulo 2^32. -/
theorem segsChainedFrom_u32 (x : Nat) (l : List TCPSegment) :
    segsChainedFrom (u32 x) l ↔ segsChainedFrom x l := by
  cases l with
  | nil => simp [segsChainedFrom]
  | cons a t =>
      have hm : u32 (u32 x) = u32 x := by simp only [u32]; omega
      simp only [segsChainedFrom, hm]

/-- Splitting lemma for `_tcp_seg_send`: on a block whose queue holds no FIN,
a send of `len > 0` bytes (with `mss > 0` and enough fuel) appends a run of
segments that starts at the tail-walk end, is chained end-to-end, has every
segment at most `mss` long, covers exactly `len` bytes, and carries the FIN
flag on its last segment only. -/
theorem seg_send_spec :
    ∀ (fuel : Nat) (tcb : TCB) (buf : List Nat) (len : Nat) (fl : TCPFlag) (fin : Bool)
      (secs usecs : Nat),
      0 < tcb.mss → 0 < len → len ≤ fuel + tcb.mss →
      tcb.segments.any TCPSegment.is_fin = false →
      ∃ ns : List TCPSegment,
        (tcp_seg_send fuel tcb buf len fl fin secs usecs).segments = tcb.segments ++ ns
        ∧ segsChainedFrom (tailSeqno tcb.seqno_me tcb.segments) ns
        ∧ (∀ g ∈ ns, g.length ≤ tcb.mss)
        ∧ (ns.map TCPSegment.length).sum = len
        ∧ ns.map TCPSegment.is_fin = List.replicate (ns.length - 1) false ++ [fin] := by
  intro fuel
  induction fuel with
  | zero =>
      intro tcb buf len fl fin secs usecs hm hl hb hf
      have hle : len ≤ tcb.mss := by omega
      have hmin : min tcb.mss len = len := by omega
      rw [tcp_seg_send]
      simp only []
      rw [if_neg (by rw [hmin]; rintro ⟨hz, -⟩; omega)]
      rw [if_neg (by simp [hf])]
      rw [if_neg (by omega : ¬(0 < len - tcb.mss))]
      refine ⟨[{ seqno := u32 (tailSeqno tcb.seqno_me tcb.segments), length := min tcb.mss len,
                 flags := fl, is_fin := (len - tcb.mss == 0) && fin,
                 buf := buf.take (min tcb.mss len) }], ?_, ?_, ?_, ?_, ?_⟩
      · simp [tcp_seg_append_segments]
      · exact ⟨rfl, trivial⟩
      · intro g hg
        simp at hg
        subst hg
        simp
      · simp [hmin]
      · have hz : (len - tcb.mss == 0) = true := by
          simp [Nat.sub_eq_zero_iff_le]
          omega
        simp [hz]
  | succ f ih =>
      intro tcb buf len fl fin secs usecs hm hl hb hf
      by_cases hsplit : 0 < len - tcb.mss
      · -- the buffer exceeds mss: one mss-sized chunk, then recurse
        have hmin : min tcb.mss len = tcb.mss := by omega
        have hzf : ((len - tcb.mss == 0) && fin) = false := by
          have : (len - tcb.mss == 0) = false := by
            simp [Nat.sub_eq_zero_iff_le]
            omega
          simp [this]
        rw [tcp_seg_send]
        simp only []
        rw [if_neg (by rw [hmin]; rintro ⟨hz, -⟩; omega)]
        rw [if_neg (by simp [hf])]
        rw [if_pos hsplit]
        set seg : TCPSegment :=
          { seqno := u32 (tailSeqno tcb.seqno_me tcb.segments), length := min tcb.mss len,
            flags := fl, is_fin := (len - tcb.mss == 0) && fin,
            buf := buf.take (min tcb.mss len) } with hsegdef
        have hseg_fin : seg.is_fin = false := hzf
        have happ := tcp_seg_append_segments tcb seg fin
        have hnofin : (tcp_seg_append tcb seg fin).segments.any TCPSegment.is_fin = false := by
          rw [happ]
          simp [List.any_append, hf, hseg_fin]
          intro h
          omega
        obtain ⟨ns, h1, h2, h3, h4, h5⟩ :=
          ih (tcp_seg_append tcb seg fin) (buf.drop (min tcb.mss len)) (len - tcb.mss)
            (if fl = TCPFlag.adopt then TCPFlag.copy else fl) fin secs usecs
            (by rw [tcp_seg_append_mss]; exact hm) hsplit
            (by rw [tcp_seg_append_mss]; omega) hnofin
        have hns_ne : ns ≠ [] := by
          intro hc
          rw [hc] at h4
          simp at h4
          omega
        refine ⟨seg :: ns, ?_, ?_, ?_, ?_, ?_⟩
        · show (tcp_seg_send f (tcp_seg_append tcb seg fin) (buf.drop (min tcb.mss len))
              (len - tcb.mss) (if fl = TCPFlag.adopt then TCPFlag.copy else fl)
              fin secs usecs).segments = tcb.segments ++ (seg :: ns)
          rw [h1, happ]
          simp
        · refine ⟨rfl, ?_⟩
          have hstart : tailSeqno (tcp_seg_append tcb seg fin).seqno_me
              (tcp_seg_append tcb seg fin).segments = u32 (seg.seqno + seg.length) := by
            rw [tcp_seg_append_seqno_me, happ, tailSeqno_append]
          rw [hstart] at h2
          exact (segsChainedFrom_u32 _ _).mp h2
        · intro g hg
          rcases List.mem_cons.mp hg with hg1 | hg2
          · subst hg1
            simp
          · have := h3 g hg2
            rw [tcp_seg_append_mss] at this
            exact this
        · simp only [List.map_cons, List.sum_cons, h4]
          show min tcb.mss len + (len - tcb.mss) = len
          omega
        · simp only [List.map_cons, h5, hseg_fin, List.length_cons]
          have hlen1 : 1 ≤ ns.length := by
            cases ns with
            | nil => exact absurd rfl hns_ne
            | cons a b => simp
          have : ns.length + 1 - 1 = (ns.length - 1) + 1 := by omega
          rw [this, List.replicate_succ]
          simp
          intro h
          omega
      · -- the whole buffer fits one segment
        have hle : len ≤ tcb.mss := by omega
        have hmin : min tcb.mss len = len := by omega
        rw [tcp_seg_send]
        simp only []
        rw [if_neg (by rw [hmin]; rintro ⟨hz, -⟩; omega)]
        rw [if_neg (by simp [hf])]
        rw [if_neg hsplit]
        refine ⟨[{ seqno := u32 (tailSeqno tcb.seqno_me tcb.segments), length := min tcb.mss len,
                   flags := fl, is_fin := (len - tcb.mss == 0) && fin,
                   buf := buf.take (min tcb.mss len) }], ?_, ?_, ?_, ?_, ?_⟩
        · simp [tcp_seg_append_segments]
        · exact ⟨rfl, trivial⟩
        · intro g hg
          simp at hg
          subst hg
          simp
        · simp [hmin]
        · have hz : (len - tcb.mss == 0) = true := by
            simp [Nat.sub_eq_zero_iff_le]
            omega
          simp [hz]

/-- C3: a send of `len > 0` bytes on a block with an empty outbound queue
and positive `mss` produces a nonempty segment run that starts at
`seq_local`, chains each segment at its predecessor's end, keeps every
segment at most `mss` long, covers exactly `[seq_local, seq_local + len)`
(the lengths sum to `len`), and sets the FIN flag on the final segment
only. -/
theorem c3_send_splits_at_mss :
    ∀ (tcb : TCB) (buf : List Nat) (len : Nat) (fl : TCPFlag) (fin : Bool)
      (secs usecs : Nat),
      tcb.segments = [] → 0 < tcb.mss → 0 < len →
      ((tcp_seg_send len tcb buf len fl fin secs usecs).segments ≠ []
       ∧ segsChainedFrom tcb.seqno_me (tcp_seg_send len tcb buf len fl fin secs usecs).segments
       ∧ (∀ g ∈ (tcp_seg_send len tcb buf len fl fin secs usecs).segments, g.length ≤ tcb.mss)
       ∧ ((tcp_seg_send len tcb buf len fl fin secs usecs).segments.map TCPSegment.length).sum
           = len
       ∧ (tcp_seg_send len tcb buf len fl fin secs usecs).segments.map TCPSegment.is_fin
           = List.replicate
               ((tcp_seg_send len tcb buf len fl fin secs usecs).segments.length - 1) false
             ++ [fin]) := by
  intro tcb buf len fl fin secs usecs hseg hm hl
  obtain ⟨ns, h1, h2, h3, h4, h5⟩ :=
    seg_send_spec len tcb buf len fl fin secs usecs hm hl (by omega)
      (by rw [hseg]; rfl)
  rw [hseg] at h1 h2
  simp only [List.nil_append] at h1
  simp only [tailSeqno] at h2
  rw [h1]
  refine ⟨?_, h2, h3, h4, h5⟩
  intro hc
  rw [hc] at h4
  simp at h4
  omega

/-- C3 witness: the 3500-byte send at `mss = 1400` from `seq_local = 1000`
yields exactly the three segments (1000, 1400), (2400, 1400), (3800, 700),
with the FIN on the last only, and the lengths sum to 3500. -/
theorem c3_send_splits_at_mss_witness :
    (tcp_seg_send 3500 tcbC3 bufC3 3500 TCPFlag.tstatic true 0 0).segments.map
        (fun g => (g.seqno, g.length, g.is_fin))
      = [(1000, 1400, false), (2400, 1400, false), (3800, 700, true)]
    ∧ ((tcp_seg_send 3500 tcbC3 bufC3 3500 TCPFlag.tstatic true 0 0).segments.map
        TCPSegment.length).sum = 3500
    ∧ segsChainedFrom tcbC3.seqno_me
        (tcp_seg_send 3500 tcbC3 bufC3 3500 TCPFlag.tstatic true 0 0).segments :=
  ⟨by decide,
   (c3_send_splits_at_mss tcbC3 bufC3 3500 TCPFlag.tstatic true 0 0 rfl
     (by decide) (by decide)).2.2.2.1,
   (c3_send_splits_at_mss tcbC3 bufC3 3500 TCPFlag.tstatic true 0 0 rfl
     (by decide) (by decide)).2.1⟩

end Masscan
